import Mathlib

/-!
Verification development for the openclaw-cliq-channel plugin.

The TypeScript sources are shallowly embedded as Lean definitions:

* `CliqTokenManager.*` embeds the singleton OAuth token manager from
  `src/outbound.ts` (the `CliqTokenManager` class): the cooperative event
  loop never interleaves the synchronous prefix of an `async` method, so
  each method is split into its synchronous prefix (up to the first
  `await`, suffix `Start`) and its completion (the code that runs when the
  awaited exchange settles, suffix `Complete`).  Promises are modelled by
  numeric ids; `exchangeCount` counts upstream token exchanges started.
* `refreshAccessToken` embeds the HTTP-result handling of
  `refreshAccessToken` in `src/auth.ts`; the wire response is a record.
* `withAutoRefresh` embeds the retry helper of `src/outbound.ts`; the
  wrapped operation is a function from (attempt index, token) to outcome.
* `ConversationTracker.*` embeds the conversation tracker
  (`conversation-tracker.ts`).  JavaScript objects are mutable and held by
  reference, so the `Map` of conversations stores references (`Nat`) into
  an explicit heap; `recordMention` allocates a fresh object while
  `recordResponse` mutates in place, exactly as the source does.
* `parseCliqPayload`, `isSenderAllowed`, `dmDecision`, `readJsonBody`,
  `handleCliqWebhookWithTargets` embed the webhook pipeline of
  `monitor.ts` (newer revision); namespace `Monitor` holds the older
  `monitor.ts` revision of `parseCliqPayload` whose title-to-unique-name
  slugify differs.

JavaScript truthiness on optional strings and `||` / `??` are embedded by
`jsTruthy`, `jsOr` and explicit matches.  Times are `Int` milliseconds.
-/

/-- Truthiness of a JavaScript `string | undefined` value: `undefined` and
the empty string are falsy. -/
def jsTruthy : Option String → Bool
  | some s => !s.isEmpty
  | none => false

/-- JavaScript `a || b` on `string | undefined` values. -/
def jsOr (a b : Option String) : Option String :=
  if jsTruthy a then a else b

/-- JavaScript `String.prototype.includes`: `pat` occurs as a substring
of `s`. -/
def strContains (s pat : String) : Bool :=
  s.toList.tails.any (fun t => List.isPrefixOf pat.toList t)

/-- JavaScript `String.prototype.trim` (whitespace stripped from both
ends). -/
def jsTrim (s : String) : String :=
  String.mk (((s.toList.dropWhile Char.isWhitespace).reverse.dropWhile
    Char.isWhitespace).reverse)

/-- JavaScript `String.prototype.toLowerCase`. -/
def jsLower (s : String) : String :=
  String.mk (s.toList.map Char.toLower)

/-- JavaScript `String.prototype.startsWith`. -/
def jsStartsWith (s pre : String) : Bool :=
  List.isPrefixOf pre.toList s.toList

/-- Drop of the first `n` characters of a string (used to strip matched
scheme markers). -/
def jsDrop (s : String) (n : Nat) : String :=
  String.mk (s.toList.drop n)

/-! ## Token lifecycle manager (`src/outbound.ts`, class `CliqTokenManager`,
and `src/auth.ts`, `refreshAccessToken`) -/

/-- State of a `CliqTokenManager` instance.  `refreshPromise` is the id of
the in-flight refresh exchange (`null` when none), `nextPromiseId` a
fresh-id counter, `exchangeCount` the number of upstream refresh exchanges
started so far, and `persisted` the tokens handed to the `configUpdater`
persistence callback (in order). -/
structure TMState where
  accessToken : String
  refreshToken : String
  expiresAt : Int
  refreshPromise : Option Nat
  nextPromiseId : Nat
  exchangeCount : Nat
  persisted : List String
  hasConfigUpdater : Bool
deriving Repr, DecidableEq

/-- Wire response of the Zoho OAuth token endpoint as consumed by
`refreshAccessToken` in `src/auth.ts`: HTTP ok flag and status, and the
decoded JSON fields `access_token`, `expires_in`, `error`. -/
structure RefreshHttpResponse where
  ok : Bool
  status : Nat
  access_token : Option String
  expires_in : Option Int
  error : Option String
deriving Repr, DecidableEq

/-- Return value of `refreshAccessToken` (`TokenRefreshResult` in
`src/auth.ts`). -/
structure TokenRefreshResult where
  accessToken : String
  expiresIn : Int
  error : Option String
deriving Repr, DecidableEq

/-- JavaScript `data.expires_in || 3600` on a `number | undefined`:
`undefined` and `0` are falsy. -/
def jsOrInt (a : Option Int) (d : Int) : Int :=
  match a with
  | some x => if x = 0 then d else x
  | none => d

/-- Embedding of `refreshAccessToken` (`src/auth.ts`): on `!response.ok`
or a truthy `data.error`, returns an empty token with an error string
(`data.error || "HTTP <status>"`), otherwise the token with
`data.expires_in || 3600`. -/
def refreshAccessToken (r : RefreshHttpResponse) : TokenRefreshResult :=
  if !r.ok || jsTruthy r.error then
    { accessToken := ""
      expiresIn := 0
      error := some (if jsTruthy r.error then r.error.getD "" else "HTTP " ++ toString r.status) }
  else
    { accessToken := r.access_token.getD ""
      expiresIn := jsOrInt r.expires_in 3600
      error := none }

namespace CliqTokenManager

/-- Synchronous prefix of `refresh()` (`src/outbound.ts`): if a refresh
promise is already stored, return it (joining the in-flight exchange);
otherwise store a fresh promise, which starts exactly one new upstream
exchange (`this.refreshPromise = this._doRefresh()` runs synchronously up
to the first `await` inside `_doRefresh`). -/
def refreshStart (s : TMState) : Nat × TMState :=
  match s.refreshPromise with
  | some p => (p, s)
  | none =>
      (s.nextPromiseId,
       { s with
           refreshPromise := some s.nextPromiseId
           nextPromiseId := s.nextPromiseId + 1
           exchangeCount := s.exchangeCount + 1 })

/-- Synchronous prefix of `getToken()` (`src/outbound.ts`): when
`this.expiresAt` is truthy and `Date.now() > this.expiresAt - 5*60*1000`,
awaits a refresh (returning the promise joined or started); otherwise the
current token is returned without any refresh. -/
def getTokenStart (now : Int) (s : TMState) : Option Nat × TMState :=
  if s.expiresAt ≠ 0 ∧ s.expiresAt - 5 * 60 * 1000 < now then
    ((refreshStart s).1, (refreshStart s).2)
  else (none, s)

/-- Completion of an in-flight refresh: the body of `_doRefresh` after the
`refreshAccessToken` exchange settles with wire response `r`, followed by
the `finally` block of `refresh()` clearing `refreshPromise`.  On an error
result the promise rejects and no field besides `refreshPromise` changes;
on success the token and expiry are stored and the `configUpdater`
callback (when configured) receives the new token. -/
def refreshComplete (r : RefreshHttpResponse) (now : Int) (s : TMState) :
    Except String String × TMState :=
  let result := refreshAccessToken r
  match result.error with
  | some e => (Except.error ("Token refresh failed: " ++ e), { s with refreshPromise := none })
  | none =>
      (Except.ok result.accessToken,
       { s with
           accessToken := result.accessToken
           expiresAt := now + result.expiresIn * 1000
           persisted := if s.hasConfigUpdater then s.persisted ++ [result.accessToken] else s.persisted
           refreshPromise := none })

/-- Synchronous prefix of `handleUnauthorized()` (`src/outbound.ts`):
unconditionally forwards to `refresh()`. -/
def handleUnauthorizedStart (s : TMState) : Nat × TMState :=
  refreshStart s

end CliqTokenManager

/-- Outcome of a token-using operation: success or a thrown error
carrying its `message` string. -/
inductive OpOutcome (α : Type) where
  | ok (a : α)
  | err (msg : String)
deriving Repr, DecidableEq

/-- Embedding of the 401-detection in `withAutoRefresh`
(`src/outbound.ts`): `err?.message?.includes("401") ||
err?.message?.includes("unauthorized") ||
err?.message?.includes("Unauthorized")`. -/
def isAuthFailure (msg : String) : Bool :=
  strContains msg "401" || strContains msg "unauthorized" || strContains msg "Unauthorized"

/-- Embedding of `withAutoRefresh` (`src/outbound.ts`).  The wrapped
operation `fn` maps (attempt index, token) to an outcome; `token` is the
token obtained from `getToken()` before the first attempt and
`refreshOutcome` the result `handleUnauthorized()` would settle with.
Returns the overall outcome together with the number of invocations of
`fn` and the number of forced refreshes performed. -/
def withAutoRefresh {α : Type} (fn : Nat → String → OpOutcome α) (token : String)
    (refreshOutcome : Except String String) : OpOutcome α × Nat × Nat :=
  match fn 0 token with
  | OpOutcome.ok a => (OpOutcome.ok a, 1, 0)
  | OpOutcome.err m =>
      if isAuthFailure m then
        match refreshOutcome with
        | Except.error e => (OpOutcome.err e, 1, 1)
        | Except.ok newTok => (fn 1 newTok, 2, 1)
      else (OpOutcome.err m, 1, 0)

/-! ### Claims C1, C7, C10 -/

/-- C1: a `refresh()` call made while another refresh exchange is in
flight joins that exchange (same promise, unchanged state, no new
upstream exchange); and two concurrent `getToken()` calls issued while
the stored token is within the 5-minute proactive-refresh margin (the
second running before the first exchange completes) both await the same
single promise, and exactly one upstream exchange is started. -/
theorem CliqTokenManager.refresh_dedup :
    (∀ (s : TMState) (p : Nat), s.refreshPromise = some p →
        CliqTokenManager.refreshStart s = (p, s)) ∧
    (∀ (s : TMState) (now1 now2 : Int),
        s.refreshPromise = none →
        s.expiresAt ≠ 0 →
        s.expiresAt - 5 * 60 * 1000 < now1 →
        s.expiresAt - 5 * 60 * 1000 < now2 →
        (CliqTokenManager.getTokenStart now1 s).1 = some s.nextPromiseId ∧
        (CliqTokenManager.getTokenStart now2 (CliqTokenManager.getTokenStart now1 s).2).1 =
          some s.nextPromiseId ∧
        (CliqTokenManager.getTokenStart now2 (CliqTokenManager.getTokenStart now1 s).2).2.exchangeCount =
          s.exchangeCount + 1) := by
  constructor
  · intro s p h
    simp [CliqTokenManager.refreshStart, h]
  · intro s now1 now2 hnone hx hm1 hm2
    have e1 : CliqTokenManager.getTokenStart now1 s =
        (some s.nextPromiseId,
         { s with
             refreshPromise := some s.nextPromiseId
             nextPromiseId := s.nextPromiseId + 1
             exchangeCount := s.exchangeCount + 1 }) := by
      unfold CliqTokenManager.getTokenStart
      rw [if_pos ⟨hx, hm1⟩]
      unfold CliqTokenManager.refreshStart
      rw [hnone]
    rw [e1]
    have e2 : CliqTokenManager.getTokenStart now2
        ({ s with
             refreshPromise := some s.nextPromiseId
             nextPromiseId := s.nextPromiseId + 1
             exchangeCount := s.exchangeCount + 1 } : TMState) =
        (some s.nextPromiseId,
         { s with
             refreshPromise := some s.nextPromiseId
             nextPromiseId := s.nextPromiseId + 1
             exchangeCount := s.exchangeCount + 1 }) := by
      unfold CliqTokenManager.getTokenStart
      rw [if_pos ⟨hx, hm2⟩]
      unfold CliqTokenManager.refreshStart
      rfl
    rw [e2]
    exact ⟨rfl, rfl, rfl⟩

/-- Witness for C1 at a concrete manager state. -/
theorem CliqTokenManager.refresh_dedup_witness :
    (CliqTokenManager.refreshStart
        { accessToken := "tokA", refreshToken := "r", expiresAt := 1000000,
          refreshPromise := some 7, nextPromiseId := 8, exchangeCount := 3,
          persisted := [], hasConfigUpdater := true } =
      (7, { accessToken := "tokA", refreshToken := "r", expiresAt := 1000000,
            refreshPromise := some 7, nextPromiseId := 8, exchangeCount := 3,
            persisted := [], hasConfigUpdater := true })) ∧
    ((CliqTokenManager.getTokenStart 999000
        (CliqTokenManager.getTokenStart 998000
          { accessToken := "tokA", refreshToken := "r", expiresAt := 1000000,
            refreshPromise := none, nextPromiseId := 0, exchangeCount := 0,
            persisted := [], hasConfigUpdater := true }).2).2.exchangeCount = 1) := by
  refine ⟨CliqTokenManager.refresh_dedup.1 _ 7 rfl, ?_⟩
  exact (CliqTokenManager.refresh_dedup.2 _ 998000 999000 rfl (by decide) (by decide) (by decide)).2.2

/-- C10: when the upstream token exchange fails (non-OK HTTP response or
a truthy `error` field), the refresh promise rejects with that error --
the single deduplicated promise every waiter awaits -- and the manager's
stored `accessToken` and `expiresAt` are unchanged and the persistence
callback is not invoked. -/
theorem CliqTokenManager.refresh_failure_preserves_state
    (r : RefreshHttpResponse) (now : Int) (s : TMState)
    (h : r.ok = false ∨ jsTruthy r.error = true) :
    (CliqTokenManager.refreshComplete r now s).1 =
      Except.error ("Token refresh failed: " ++
        (if jsTruthy r.error then r.error.getD "" else "HTTP " ++ toString r.status)) ∧
    (CliqTokenManager.refreshComplete r now s).2.accessToken = s.accessToken ∧
    (CliqTokenManager.refreshComplete r now s).2.expiresAt = s.expiresAt ∧
    (CliqTokenManager.refreshComplete r now s).2.persisted = s.persisted := by
  have hcond : (!r.ok || jsTruthy r.error) = true := by
    rcases h with h | h
    · simp [h]
    · simp [h]
  simp [CliqTokenManager.refreshComplete, refreshAccessToken, hcond]

/-- Witness for C10: a concrete failed exchange (`HTTP 400` with
`error: "invalid_code"`) leaves a concrete manager state untouched. -/
theorem CliqTokenManager.refresh_failure_preserves_state_witness :
    (CliqTokenManager.refreshComplete
        { ok := false, status := 400, access_token := none, expires_in := none,
          error := some "invalid_code" } 5000
        { accessToken := "tokA", refreshToken := "r", expiresAt := 777,
          refreshPromise := some 0, nextPromiseId := 1, exchangeCount := 1,
          persisted := ["old"], hasConfigUpdater := true }).1 =
      Except.error "Token refresh failed: invalid_code" ∧
    (CliqTokenManager.refreshComplete
        { ok := false, status := 400, access_token := none, expires_in := none,
          error := some "invalid_code" } 5000
        { accessToken := "tokA", refreshToken := "r", expiresAt := 777,
          refreshPromise := some 0, nextPromiseId := 1, exchangeCount := 1,
          persisted := ["old"], hasConfigUpdater := true }).2.accessToken = "tokA" ∧
    (CliqTokenManager.refreshComplete
        { ok := false, status := 400, access_token := none, expires_in := none,
          error := some "invalid_code" } 5000
        { accessToken := "tokA", refreshToken := "r", expiresAt := 777,
          refreshPromise := some 0, nextPromiseId := 1, exchangeCount := 1,
          persisted := ["old"], hasConfigUpdater := true }).2.expiresAt = 777 ∧
    (CliqTokenManager.refreshComplete
        { ok := false, status := 400, access_token := none, expires_in := none,
          error := some "invalid_code" } 5000
        { accessToken := "tokA", refreshToken := "r", expiresAt := 777,
          refreshPromise := some 0, nextPromiseId := 1, exchangeCount := 1,
          persisted := ["old"], hasConfigUpdater := true }).2.persisted = ["old"] := by
  have h := CliqTokenManager.refresh_failure_preserves_state
    { ok := false, status := 400, access_token := none, expires_in := none,
      error := some "invalid_code" } 5000
    { accessToken := "tokA", refreshToken := "r", expiresAt := 777,
      refreshPromise := some 0, nextPromiseId := 1, exchangeCount := 1,
      persisted := ["old"], hasConfigUpdater := true }
    (Or.inl rfl)
  exact ⟨h.1, h.2.1, h.2.2.1, h.2.2.2⟩

/-- C7: the auto-refresh wrapper runs the operation once with the current
token; a success or a non-authorization failure of that first attempt is
returned as-is with no refresh and no retry; an authorization failure
triggers exactly one forced refresh and exactly one retry with the new
token, whose outcome -- success or failure -- is returned without any
further retry. -/
theorem withAutoRefresh_spec {α : Type} (fn : Nat → String → OpOutcome α)
    (token newTok : String) :
    (∀ a : α, fn 0 token = OpOutcome.ok a →
        withAutoRefresh fn token (Except.ok newTok) = (OpOutcome.ok a, 1, 0)) ∧
    (∀ m : String, fn 0 token = OpOutcome.err m → isAuthFailure m = false →
        withAutoRefresh fn token (Except.ok newTok) = (OpOutcome.err m, 1, 0)) ∧
    (∀ m : String, fn 0 token = OpOutcome.err m → isAuthFailure m = true →
        withAutoRefresh fn token (Except.ok newTok) = (fn 1 newTok, 2, 1)) := by
  refine ⟨?_, ?_, ?_⟩
  · intro a h; simp [withAutoRefresh, h]
  · intro m h hna; simp [withAutoRefresh, h, hna]
  · intro m h ha; simp [withAutoRefresh, h, ha]

/-- Witness for C7: a concrete operation failing with a 401 message on the
first attempt and succeeding on the retry yields exactly one refresh and
two invocations; one failing with a non-401 message is not retried. -/
theorem withAutoRefresh_spec_witness :
    withAutoRefresh
        (fun attempt _tok =>
          if attempt = 0 then OpOutcome.err "Cliq API unauthorized (token may be expired): x"
          else OpOutcome.ok 42)
        "oldTok" (Except.ok "newTok") = (OpOutcome.ok 42, 2, 1) ∧
    withAutoRefresh
        (fun _ _ => (OpOutcome.err "Cliq chat not found: c1" : OpOutcome Nat))
        "oldTok" (Except.ok "newTok") = (OpOutcome.err "Cliq chat not found: c1", 1, 0) := by
  constructor
  · exact (withAutoRefresh_spec
      (fun attempt _tok =>
        if attempt = 0 then OpOutcome.err "Cliq API unauthorized (token may be expired): x"
        else OpOutcome.ok 42) "oldTok" "newTok").2.2
      "Cliq API unauthorized (token may be expired): x" (by decide) (by decide)
  · exact (withAutoRefresh_spec
      (fun _ _ => (OpOutcome.err "Cliq chat not found: c1" : OpOutcome Nat))
      "oldTok" "newTok").2.1 "Cliq chat not found: c1" rfl (by decide)

/-! ## Conversation tracker (`conversation-tracker.ts`) -/

/-- Entry value of the tracker map (`ConversationState` in
`conversation-tracker.ts`). -/
structure ConversationState where
  lastMentionAt : Int
  lastResponseAt : Int
  sessionKey : String
  topic : Option String
deriving Repr, DecidableEq

/-- Lookup in an insertion-ordered association list (JavaScript
`Map.prototype.get`). -/
def assocGet {κ β : Type} [DecidableEq κ] : List (κ × β) → κ → Option β
  | [], _ => none
  | (k, v) :: t, q => if k = q then some v else assocGet t q

/-- Update in an insertion-ordered association list (JavaScript
`Map.prototype.set`): an existing key keeps its position, a new key is
appended. -/
def assocSet {κ β : Type} [DecidableEq κ] (l : List (κ × β)) (q : κ) (v : β) : List (κ × β) :=
  if l.any (fun p => decide (p.1 = q)) then
    l.map (fun p => if p.1 = q then (q, v) else p)
  else l ++ [(q, v)]

/-- Removal from an association list (JavaScript `Map.prototype.delete`). -/
def assocDelete {κ β : Type} [DecidableEq κ] (l : List (κ × β)) (q : κ) : List (κ × β) :=
  l.filter (fun p => decide (p.1 ≠ q))

/-- State of the `ConversationTracker` class.  JavaScript stores objects
by reference and `recordResponse` mutates an entry in place, so the map
`conversations` holds references (`Nat`) into the explicit `heap`;
`nextRef` is the allocator counter. -/
structure ConversationTracker where
  conversations : List (String × Nat)
  heap : List (Nat × ConversationState)
  nextRef : Nat
  timeoutMs : Int
  maxConversations : Nat
deriving Repr, DecidableEq

namespace ConversationTracker

/-- Embedding of the private `makeKey` helper. -/
def makeKey (channelId userId : String) : String :=
  "cliq:" ++ channelId ++ ":" ++ userId

/-- Activity timestamp used throughout the tracker:
`Math.max(state.lastMentionAt, state.lastResponseAt)`. -/
def lastActivity (st : ConversationState) : Int :=
  max st.lastMentionAt st.lastResponseAt

/-- Insertion part of `recordMention`: builds the new state object
(`lastMentionAt = now`, preserving an existing `lastResponseAt` and --
via `??` -- an existing topic), allocates it fresh on the heap and stores
its reference under the key. -/
def insertMention (now : Int) (channelId userId sessionKey : String)
    (topic : Option String) (t : ConversationTracker) : ConversationTracker :=
  let key := makeKey channelId userId
  let existing := (assocGet t.conversations key).bind (assocGet t.heap)
  let st : ConversationState :=
    { lastMentionAt := now
      lastResponseAt := (existing.map (fun e => e.lastResponseAt)).getD now
      sessionKey := sessionKey
      topic := match topic with
        | some x => some x
        | none => existing.bind (fun e => e.topic) }
  { t with
      conversations := assocSet t.conversations key t.nextRef
      heap := assocSet t.heap t.nextRef st
      nextRef := t.nextRef + 1 }

/-- Embedding of the private `findOldest` method: iterate the map in
insertion order keeping the key with the strictly smallest
`max(lastMentionAt, lastResponseAt)` (first wins on ties; the initial
best is `Infinity`, modelled by `none`). -/
def findOldestGo (heap : List (Nat × ConversationState)) :
    List (String × Nat) → Option String × Option Int → Option String × Option Int
  | [], acc => acc
  | e :: rest, acc =>
      match assocGet heap e.2 with
      | none => findOldestGo heap rest acc
      | some st =>
          match acc with
          | (_, none) => findOldestGo heap rest (some e.1, some (lastActivity st))
          | (cur, some o) =>
              if lastActivity st < o then
                findOldestGo heap rest (some e.1, some (lastActivity st))
              else findOldestGo heap rest (cur, some o)

/-- Embedding of `findOldest`. -/
def findOldest (t : ConversationTracker) : Option String :=
  (findOldestGo t.heap t.conversations (none, none)).1

/-- LRU eviction step at the end of `recordMention`: when the map has
grown past `maxConversations`, delete the `findOldest` key (no TTL check
is involved). -/
def evictIfOver (t : ConversationTracker) : ConversationTracker :=
  if t.conversations.length > t.maxConversations then
    match findOldest t with
    | some key => { t with conversations := assocDelete t.conversations key }
    | none => t
  else t

/-- Embedding of `recordMention`. -/
def recordMention (now : Int) (channelId userId sessionKey : String)
    (topic : Option String) (t : ConversationTracker) : ConversationTracker :=
  evictIfOver (insertMention now channelId userId sessionKey topic t)

/-- Embedding of `recordResponse`: mutate `lastResponseAt` of the stored
object in place (a no-op when the key is absent). -/
def recordResponse (now : Int) (channelId userId : String)
    (t : ConversationTracker) : ConversationTracker :=
  let key := makeKey channelId userId
  match assocGet t.conversations key with
  | none => t
  | some r =>
      match assocGet t.heap r with
      | none => t
      | some st =>
          { t with heap := assocSet t.heap r { st with lastResponseAt := now } }

/-- Embedding of `getActiveConversation`: absent key yields nothing; an
entry whose elapsed time since `max(lastMentionAt, lastResponseAt)`
strictly exceeds `timeoutMs` is deleted and nothing is returned;
otherwise the reference to the stored object itself is returned
(`return state;` -- no copy is made). -/
def getActiveConversation (now : Int) (channelId userId : String)
    (t : ConversationTracker) : Option Nat × ConversationTracker :=
  let key := makeKey channelId userId
  match assocGet t.conversations key with
  | none => (none, t)
  | some r =>
      match assocGet t.heap r with
      | none => (none, t)
      | some st =>
          if now - lastActivity st > t.timeoutMs then
            (none, { t with conversations := assocDelete t.conversations key })
          else (some r, t)

end ConversationTracker

/-! ### Claim C2 -/

/-- Sample tracker used by the C2 theorems: one conversation for
`(c1, u1)` whose last activity is at `100000` ms, TTL 300 s. -/
def sampleTrackerC2 : ConversationTracker :=
  { conversations := [("cliq:c1:u1", 0)]
    heap := [(0, { lastMentionAt := 100000, lastResponseAt := 100000,
                   sessionKey := "s", topic := none })]
    nextRef := 1
    timeoutMs := 300000
    maxConversations := 1000 }

/-- C2 (counterexample): `getActiveConversation` does not return a copy
of the entry -- it returns the stored object itself.  Concretely: after
`recordMention` at time 1000, the lookup at time 1200 returns reference
`0`, which is exactly the reference the map stores for the key, and a
subsequent `recordResponse` at time 2000 mutates the object observed
through that same returned reference. -/
theorem ConversationTracker.getActive_returns_stored_object :
    (ConversationTracker.getActiveConversation 1200 "ch" "u"
        (ConversationTracker.recordMention 1000 "ch" "u" "sess" none
          { conversations := [], heap := [], nextRef := 0,
            timeoutMs := 300000, maxConversations := 1000 })).1 = some 0 ∧
    assocGet (ConversationTracker.recordMention 1000 "ch" "u" "sess" none
        { conversations := [], heap := [], nextRef := 0,
          timeoutMs := 300000, maxConversations := 1000 }).conversations
      (ConversationTracker.makeKey "ch" "u") = some 0 ∧
    assocGet (ConversationTracker.recordResponse 2000 "ch" "u"
        (ConversationTracker.recordMention 1000 "ch" "u" "sess" none
          { conversations := [], heap := [], nextRef := 0,
            timeoutMs := 300000, maxConversations := 1000 })).heap 0 =
      some { lastMentionAt := 1000, lastResponseAt := 2000,
             sessionKey := "sess", topic := none } := by
  decide

/-- C2 (amended): `getActiveConversation(key)` computes
elapsed = now − max(lastMentionAt, lastResponseAt); if elapsed exceeds
the configured TTL it deletes the entry and returns nothing; otherwise it
returns the stored entry itself (the same reference held by the map, not
a copy). -/
theorem ConversationTracker.getActiveConversation_spec
    (t : ConversationTracker) (now : Int) (channelId userId : String)
    (r : Nat) (st : ConversationState)
    (hr : assocGet t.conversations (ConversationTracker.makeKey channelId userId) = some r)
    (hst : assocGet t.heap r = some st) :
    (now - ConversationTracker.lastActivity st > t.timeoutMs →
        ConversationTracker.getActiveConversation now channelId userId t =
          (none,
           { t with
               conversations :=
                 assocDelete t.conversations (ConversationTracker.makeKey channelId userId) })) ∧
    (¬ now - ConversationTracker.lastActivity st > t.timeoutMs →
        ConversationTracker.getActiveConversation now channelId userId t = (some r, t)) := by
  constructor <;> intro h <;>
    simp [ConversationTracker.getActiveConversation, hr, hst, h]

/-- Witness for C2 (amended theorem) with TTL = 300 s: a lookup 301 s
after the last activity returns nothing and removes the entry, and a
lookup 300 s after the last activity returns the stored reference. -/
theorem ConversationTracker.getActiveConversation_spec_witness :
    (ConversationTracker.getActiveConversation 401000 "c1" "u1" sampleTrackerC2).1 = none ∧
    (ConversationTracker.getActiveConversation 401000 "c1" "u1" sampleTrackerC2).2.conversations = [] ∧
    (ConversationTracker.getActiveConversation 400000 "c1" "u1" sampleTrackerC2).1 = some 0 := by
  have hexp := ConversationTracker.getActiveConversation_spec sampleTrackerC2 401000 "c1" "u1" 0
    { lastMentionAt := 100000, lastResponseAt := 100000, sessionKey := "s", topic := none }
    (by decide) (by decide)
  have hact := ConversationTracker.getActiveConversation_spec sampleTrackerC2 400000 "c1" "u1" 0
    { lastMentionAt := 100000, lastResponseAt := 100000, sessionKey := "s", topic := none }
    (by decide) (by decide)
  refine ⟨?_, ?_, ?_⟩
  · rw [hexp.1 (by decide)]
  · rw [hexp.1 (by decide)]; decide
  · rw [hact.2 (by decide)]

/-! ### Claim C3 -/

namespace ConversationTracker

/-- Invariant carried through the `findOldest` iteration: after
processing the entries in `seen`, the accumulator either is still the
initial `(null, Infinity)` and every seen reference missed the heap, or
it names a seen entry whose activity is a lower bound of every seen
entry's activity. -/
def FoldGood (heap : List (Nat × ConversationState)) (seen : List (String × Nat))
    (acc : Option String × Option Int) : Prop :=
  match acc with
  | (some k, some o) =>
      (∃ r st, (k, r) ∈ seen ∧ assocGet heap r = some st ∧ lastActivity st = o) ∧
      (∀ e ∈ seen, ∀ st, assocGet heap e.2 = some st → o ≤ lastActivity st)
  | (none, none) => ∀ e ∈ seen, assocGet heap e.2 = none
  | _ => False

theorem findOldestGo_good (heap : List (Nat × ConversationState)) :
    ∀ (l pre : List (String × Nat)) (acc : Option String × Option Int),
      FoldGood heap pre acc → FoldGood heap (pre ++ l) (findOldestGo heap l acc) := by
  intro l
  induction l with
  | nil =>
      intro pre acc h
      simpa [findOldestGo] using h
  | cons e rest ih =>
      intro pre acc h
      have happ : pre ++ e :: rest = (pre ++ [e]) ++ rest := by simp
      rw [happ]
      cases he : assocGet heap e.2 with
      | none =>
          have step : findOldestGo heap (e :: rest) acc = findOldestGo heap rest acc := by
            simp [findOldestGo, he]
          rw [step]
          apply ih
          obtain ⟨c1, c2⟩ := acc
          cases c2 with
          | none =>
              cases c1 with
              | none =>
                  intro e2 he2
                  rcases List.mem_append.mp he2 with hp | hs
                  · exact h e2 hp
                  · rw [List.mem_singleton.mp hs]; exact he
              | some k => exact h.elim
          | some o =>
              cases c1 with
              | none => exact h.elim
              | some k =>
                  obtain ⟨⟨r, st2, hmem, hget, hla⟩, hmin⟩ := h
                  refine ⟨⟨r, st2, List.mem_append_left _ hmem, hget, hla⟩, ?_⟩
                  intro e2 he2 st3 hget3
                  rcases List.mem_append.mp he2 with hp | hs
                  · exact hmin e2 hp st3 hget3
                  · rw [List.mem_singleton.mp hs] at hget3
                    rw [he] at hget3
                    exact absurd hget3 (by simp)
      | some st =>
          obtain ⟨c1, c2⟩ := acc
          cases c2 with
          | none =>
              cases c1 with
              | some k => exact h.elim
              | none =>
                  have step : findOldestGo heap (e :: rest) (none, none) =
                      findOldestGo heap rest (some e.1, some (lastActivity st)) := by
                    simp [findOldestGo, he]
                  rw [step]
                  apply ih
                  refine ⟨⟨e.2, st, ?_, he, rfl⟩, ?_⟩
                  · rw [Prod.mk.eta]
                    exact List.mem_append_right _ (List.mem_singleton_self e)
                  · intro e2 he2 st3 hget3
                    rcases List.mem_append.mp he2 with hp | hs
                    · rw [h e2 hp] at hget3
                      exact absurd hget3 (by simp)
                    · rw [List.mem_singleton.mp hs] at hget3
                      rw [he] at hget3
                      injection hget3 with hst3
                      rw [← hst3]
          | some o =>
              cases c1 with
              | none => exact h.elim
              | some k =>
                  obtain ⟨⟨r, st2, hmem, hget, hla⟩, hmin⟩ := h
                  by_cases hlt : lastActivity st < o
                  · have step : findOldestGo heap (e :: rest) (some k, some o) =
                        findOldestGo heap rest (some e.1, some (lastActivity st)) := by
                      simp [findOldestGo, he, hlt]
                    rw [step]
                    apply ih
                    refine ⟨⟨e.2, st, ?_, he, rfl⟩, ?_⟩
                    · rw [Prod.mk.eta]
                      exact List.mem_append_right _ (List.mem_singleton_self e)
                    · intro e2 he2 st3 hget3
                      rcases List.mem_append.mp he2 with hp | hs
                      · exact le_trans (le_of_lt hlt) (hmin e2 hp st3 hget3)
                      · rw [List.mem_singleton.mp hs] at hget3
                        rw [he] at hget3
                        injection hget3 with hst3
                        rw [← hst3]
                  · have step : findOldestGo heap (e :: rest) (some k, some o) =
                        findOldestGo heap rest (some k, some o) := by
                      simp [findOldestGo, he, hlt]
                    rw [step]
                    apply ih
                    refine ⟨⟨r, st2, List.mem_append_left _ hmem, hget, hla⟩, ?_⟩
                    intro e2 he2 st3 hget3
                    rcases List.mem_append.mp he2 with hp | hs
                    · exact hmin e2 hp st3 hget3
                    · rw [List.mem_singleton.mp hs] at hget3
                      rw [he] at hget3
                      injection hget3 with hst3
                      rw [← hst3]
                      exact le_of_not_lt hlt

/-- Unconditional specification of `findOldest` on a tracker whose map
references all resolve in the heap: it returns a key holding a global
minimizer of `max(lastMentionAt, lastResponseAt)`. -/
theorem findOldest_spec (t : ConversationTracker)
    (hw : ∀ e ∈ t.conversations, (assocGet t.heap e.2).isSome = true)
    (hne : t.conversations ≠ []) :
    ∃ k r st, findOldest t = some k ∧ (k, r) ∈ t.conversations ∧
      assocGet t.heap r = some st ∧
      ∀ e ∈ t.conversations, ∀ st2, assocGet t.heap e.2 = some st2 →
        lastActivity st ≤ lastActivity st2 := by
  have hg := findOldestGo_good t.heap t.conversations [] (none, none)
    (by intro e he; exact absurd he (List.not_mem_nil e))
  rw [List.nil_append] at hg
  cases hres : (findOldestGo t.heap t.conversations (none, none)) with
  | mk c1 c2 =>
    rw [hres] at hg
    cases c2 with
    | none =>
        cases c1 with
        | none =>
            exfalso
            cases hcs : t.conversations with
            | nil => exact hne hcs
            | cons e0 rest =>
                have h0 : e0 ∈ t.conversations := by rw [hcs]; exact List.mem_cons_self e0 rest
                have := hw e0 h0
                rw [hg e0 h0] at this
                simp at this
        | some k => exact hg.elim
    | some o =>
        cases c1 with
        | none => exact hg.elim
        | some k =>
            obtain ⟨⟨r, st, hmem, hget, hla⟩, hmin⟩ := hg
            refine ⟨k, r, st, ?_, hmem, hget, ?_⟩
            · unfold findOldest
              rw [hres]
            · intro e he st2 hget2
              rw [hla]
              exact hmin e he st2 hget2

theorem assocDelete_eq_self_of_not_mem {κ β : Type} [DecidableEq κ]
    (l : List (κ × β)) (k : κ) (h : k ∉ l.map Prod.fst) :
    assocDelete l k = l := by
  unfold assocDelete
  apply List.filter_eq_self.mpr
  intro p hp
  have hne : p.1 ≠ k := by
    intro he
    exact h (he ▸ List.mem_map_of_mem Prod.fst hp)
  simpa using hne

theorem assocDelete_length_of_mem {κ β : Type} [DecidableEq κ] :
    ∀ (l : List (κ × β)) (k : κ), (l.map Prod.fst).Nodup → (∃ v, (k, v) ∈ l) →
      (assocDelete l k).length + 1 = l.length := by
  intro l
  induction l with
  | nil =>
      intro k _ hm
      obtain ⟨v, hv⟩ := hm
      exact absurd hv (List.not_mem_nil _)
  | cons a t ih =>
      intro k hnd hm
      simp only [List.map_cons] at hnd
      by_cases hk : a.1 = k
      · have hdel : assocDelete (a :: t) k = assocDelete t k := by
          unfold assocDelete
          simp [List.filter_cons, hk]
        have hnotin : k ∉ t.map Prod.fst := by
          rw [← hk]
          exact (List.nodup_cons.mp hnd).1
        rw [hdel, assocDelete_eq_self_of_not_mem t k hnotin]
        simp
      · have hdel : assocDelete (a :: t) k = a :: assocDelete t k := by
          unfold assocDelete
          simp [List.filter_cons, hk]
        obtain ⟨v, hv⟩ := hm
        have hvt : (k, v) ∈ t := by
          rcases List.mem_cons.mp hv with he | ht
          · exact absurd (congrArg Prod.fst he).symm hk
          · exact ht
        rw [hdel]
        simp only [List.length_cons]
        rw [ih k (List.nodup_cons.mp hnd).2 ⟨v, hvt⟩]

end ConversationTracker

/-- C3: `recordMention` is the only writer that can grow the table; it is
the insertion followed by the capacity check, and whenever the number of
entries exceeds `maxConversations` after a write, exactly one entry is
evicted (the length drops back by one), namely a key holding the
globally smallest `max(lastMentionAt, lastResponseAt)` -- no TTL check
takes part in the choice.  Stated for any well-formed tracker state
(map references resolve in the heap, keys unique). -/
theorem ConversationTracker.recordMention_evicts_oldest :
    (∀ (now : Int) (channelId userId sessionKey : String) (topic : Option String)
        (t : ConversationTracker),
        ConversationTracker.recordMention now channelId userId sessionKey topic t =
          ConversationTracker.evictIfOver
            (ConversationTracker.insertMention now channelId userId sessionKey topic t)) ∧
    (∀ t1 : ConversationTracker,
        (∀ e ∈ t1.conversations, (assocGet t1.heap e.2).isSome = true) →
        (t1.conversations.map Prod.fst).Nodup →
        t1.conversations.length > t1.maxConversations →
        ∃ k r st, ConversationTracker.findOldest t1 = some k ∧
          (k, r) ∈ t1.conversations ∧
          assocGet t1.heap r = some st ∧
          (∀ e ∈ t1.conversations, ∀ st2, assocGet t1.heap e.2 = some st2 →
              ConversationTracker.lastActivity st ≤ ConversationTracker.lastActivity st2) ∧
          ConversationTracker.evictIfOver t1 =
            { t1 with conversations := assocDelete t1.conversations k } ∧
          (ConversationTracker.evictIfOver t1).conversations.length + 1 =
            t1.conversations.length) := by
  constructor
  · intro now channelId userId sessionKey topic t
    rfl
  · intro t1 hw hnd hover
    have hne : t1.conversations ≠ [] := by
      intro h
      rw [h, List.length_nil] at hover
      exact absurd hover (Nat.not_lt_zero _)
    obtain ⟨k, r, st, hfind, hmem, hget, hmin⟩ :=
      ConversationTracker.findOldest_spec t1 hw hne
    have hev : ConversationTracker.evictIfOver t1 =
        { t1 with conversations := assocDelete t1.conversations k } := by
      unfold ConversationTracker.evictIfOver
      rw [if_pos hover, hfind]
    refine ⟨k, r, st, hfind, hmem, hget, hmin, hev, ?_⟩
    rw [hev]
    exact ConversationTracker.assocDelete_length_of_mem t1.conversations k hnd ⟨r, hmem⟩

/-- Sample tracker for the C3 witness: capacity bound 2, two existing
conversations; `alice` has the smallest activity timestamp and is in
fact long expired under the 300 s TTL at the insertion time used. -/
def sampleTrackerC3 : ConversationTracker :=
  { conversations := [("cliq:c1:alice", 0), ("cliq:c1:bob", 1)]
    heap := [(0, { lastMentionAt := 1000, lastResponseAt := 1000,
                   sessionKey := "sA", topic := none }),
             (1, { lastMentionAt := 900000000, lastResponseAt := 900000000,
                   sessionKey := "sB", topic := none })]
    nextRef := 2
    timeoutMs := 300000
    maxConversations := 2 }

/-- Witness for C3: inserting a third distinct conversation (`carol`)
into a tracker with capacity bound 2 evicts exactly the entry with the
smallest `max(lastMentionAt, lastResponseAt)` (`alice`, itself already
TTL-expired), leaving `bob` and the fresh `carol` entry. -/
theorem ConversationTracker.recordMention_evicts_oldest_witness :
    (∃ k r st, ConversationTracker.findOldest
          (ConversationTracker.insertMention 900001000 "c1" "carol" "sC" none sampleTrackerC3) =
            some k ∧
        (k, r) ∈ (ConversationTracker.insertMention 900001000 "c1" "carol" "sC" none
            sampleTrackerC3).conversations ∧
        assocGet (ConversationTracker.insertMention 900001000 "c1" "carol" "sC" none
            sampleTrackerC3).heap r = some st ∧
        (∀ e ∈ (ConversationTracker.insertMention 900001000 "c1" "carol" "sC" none
            sampleTrackerC3).conversations,
          ∀ st2, assocGet (ConversationTracker.insertMention 900001000 "c1" "carol" "sC" none
              sampleTrackerC3).heap e.2 = some st2 →
            ConversationTracker.lastActivity st ≤ ConversationTracker.lastActivity st2) ∧
        ConversationTracker.evictIfOver
            (ConversationTracker.insertMention 900001000 "c1" "carol" "sC" none sampleTrackerC3) =
          { ConversationTracker.insertMention 900001000 "c1" "carol" "sC" none sampleTrackerC3 with
              conversations := assocDelete
                (ConversationTracker.insertMention 900001000 "c1" "carol" "sC" none
                  sampleTrackerC3).conversations k } ∧
        (ConversationTracker.evictIfOver
            (ConversationTracker.insertMention 900001000 "c1" "carol" "sC" none
              sampleTrackerC3)).conversations.length + 1 =
          (ConversationTracker.insertMention 900001000 "c1" "carol" "sC" none
            sampleTrackerC3).conversations.length) ∧
    (ConversationTracker.recordMention 900001000 "c1" "carol" "sC" none
        sampleTrackerC3).conversations = [("cliq:c1:bob", 1), ("cliq:c1:carol", 2)] := by
  constructor
  · exact ConversationTracker.recordMention_evicts_oldest.2
      (ConversationTracker.insertMention 900001000 "c1" "carol" "sC" none sampleTrackerC3)
      (by decide) (by decide) (by decide)
  · decide

/-! ## Webhook payloads and the payload normalizer
(`monitor.ts`, `parseCliqPayload` -- newer revision at top level, older
revision in namespace `Monitor`) -/

/-- The `message` field of a webhook payload: Zoho sends either a bare
string or an object `{ text?, id?, time? }`. -/
inductive MessageField where
  | str (s : String)
  | obj (text : Option String) (id : Option String) (time : Option String)
deriving Repr, DecidableEq

/-- The `user` object of a webhook payload. -/
structure CliqUser where
  id : String
  name : Option String
  first_name : Option String
  last_name : Option String
  email_id : Option String
  email : Option String
deriving Repr, DecidableEq

/-- The `chat` object of a webhook payload. -/
structure CliqChat where
  id : String
  type : Option String
  chat_type : Option String
  title : Option String
  channel_unique_name : Option String
  channel_id : Option String
deriving Repr, DecidableEq

/-- The `channel` object of a webhook payload. -/
structure CliqChannel where
  id : String
  name : String
  unique_name : Option String
deriving Repr, DecidableEq

/-- The `thread` object of a webhook payload. -/
structure CliqThread where
  id : String
deriving Repr, DecidableEq

/-- One entry of the `mentions` array of a webhook payload. -/
structure CliqMentionEntry where
  id : String
  name : String
  type : Option String
deriving Repr, DecidableEq

/-- The wrapped `params` object some Cliq webhook configurations send. -/
structure CliqParams where
  message : Option MessageField
  user : Option CliqUser
  channel : Option CliqChannel
  chat : Option CliqChat
deriving Repr, DecidableEq

/-- A webhook payload (`CliqWebhookPayload` in `monitor.ts`); every field
may be absent. -/
structure CliqWebhookPayload where
  message : Option MessageField
  text : Option String
  user : Option CliqUser
  chat : Option CliqChat
  channel : Option CliqChannel
  thread : Option CliqThread
  mentions : Option (List CliqMentionEntry)
  handler : Option String
  params : Option CliqParams
deriving Repr, DecidableEq

/-- The normalized inbound message (`CliqMessage` in `config.ts`). -/
structure CliqMessage where
  chatId : String
  senderId : String
  senderName : String
  senderEmail : Option String
  text : String
  messageId : String
  timestamp : String
  channelId : Option String
  channelName : Option String
  channelUniqueName : Option String
  isChannel : Bool
  isMention : Bool
  threadId : Option String
deriving Repr, DecidableEq

/-- Text extraction of the newer `parseCliqPayload`: a string `message`
is trimmed; an object `message` contributes `message.text?.trim() || ""`;
when that is empty and `payload.text` is truthy, `payload.text.trim()`
is used. -/
def extractText (p : CliqWebhookPayload) : String :=
  let t0 : String :=
    match p.message with
    | some (MessageField.str s) => jsTrim s
    | some (MessageField.obj t _ _) => jsTrim (t.getD "")
    | none => ""
  if t0.isEmpty then
    match p.text with
    | some s => if s.isEmpty then "" else jsTrim s
    | none => ""
  else t0

/-- The `message.id` of an object-shaped `message` field (`"" `when
absent), as read by `parseCliqPayload`. -/
def extractMessageId (p : CliqWebhookPayload) : String :=
  match p.message with
  | some (MessageField.obj _ i _) => i.getD ""
  | _ => ""

/-- The `message.time` of an object-shaped `message` field (`""` when
absent), as read by `parseCliqPayload`. -/
def extractMessageTime (p : CliqWebhookPayload) : String :=
  match p.message with
  | some (MessageField.obj _ _ tm) => tm.getD ""
  | _ => ""

/-- Channel-source classification of the newer `parseCliqPayload`:
`Boolean(channel?.id || channel?.unique_name)`, or
`chat?.type === "channel" || chat?.chat_type === "channel"`, or
`Boolean(chat?.channel_unique_name)`. -/
def isChannelPayload (p : CliqWebhookPayload) : Bool :=
  (match p.channel with
   | some c => !c.id.isEmpty || jsTruthy c.unique_name
   | none => false) ||
  (p.chat.bind (fun c => c.type) == some "channel" ||
   p.chat.bind (fun c => c.chat_type) == some "channel") ||
  jsTruthy (p.chat.bind (fun c => c.channel_unique_name))

/-- Mention classification of the newer `parseCliqPayload`:
`handler.includes("mention") || mentions?.some(m => m.type === "bot") ||
isChannel`. -/
def isMentionPayload (p : CliqWebhookPayload) : Bool :=
  strContains (p.handler.getD "") "mention" ||
  (p.mentions.getD []).any (fun m => m.type == some "bot") ||
  isChannelPayload p

/-- Sender display name synthesis of the newer `parseCliqPayload`:
`user.name || [first_name, last_name].filter(Boolean).join(" ") ||
user.id`. -/
def buildUserName (u : CliqUser) : String :=
  if jsTruthy u.name then u.name.getD ""
  else
    let joined := String.intercalate " "
      (([u.first_name, u.last_name].filterMap id).filter (fun s => !s.isEmpty))
    if joined.isEmpty then u.id else joined

/-- Strip of the regex `/^#\s*/`: a single leading `#` and the
whitespace after it. -/
def stripLeadingHash (s : String) : String :=
  if jsStartsWith s "#" then String.mk ((jsDrop s 1).toList.dropWhile Char.isWhitespace)
  else s

/-- Embedding of the newer `parseCliqPayload` (`monitor.ts`).  `nowMs`
stands for `Date.now()` and `nowIso` for `new Date().toISOString()`.
Returns `none` exactly when no usable text or no sender id was found. -/
def parseCliqPayload (p : CliqWebhookPayload) (nowMs : Int) (nowIso : String) :
    Option CliqMessage :=
  let text := extractText p
  match p.user with
  | none => none
  | some u =>
      if text.isEmpty || u.id.isEmpty then none
      else
        let channelUniqueName0 :=
          jsOr (p.chat.bind (fun c => c.channel_unique_name))
            (jsOr (p.channel.bind (fun c => c.unique_name))
              (p.channel.map (fun c => c.name)))
        let channelId :=
          jsOr (p.chat.bind (fun c => c.channel_id)) (p.channel.map (fun c => c.id))
        let chatId := (jsOr (p.chat.map (fun c => c.id)) channelId).getD ""
        let isChatChannel :=
          p.chat.bind (fun c => c.type) == some "channel" ||
          p.chat.bind (fun c => c.chat_type) == some "channel"
        let channelName0 := p.channel.map (fun c => c.name)
        let channelName :=
          if isChatChannel && !jsTruthy channelName0 &&
              jsTruthy (p.chat.bind (fun c => c.title)) then
            some (jsTrim (stripLeadingHash ((p.chat.bind (fun c => c.title)).getD "")))
          else channelName0
        let channelUniqueName :=
          if !jsTruthy channelUniqueName0 &&
              jsTruthy (p.chat.bind (fun c => c.channel_unique_name)) then
            p.chat.bind (fun c => c.channel_unique_name)
          else channelUniqueName0
        some
          { chatId := chatId
            senderId := u.id
            senderName := buildUserName u
            senderEmail := jsOr u.email_id u.email
            text := text
            messageId :=
              if (extractMessageId p).isEmpty then "cliq-" ++ toString nowMs
              else extractMessageId p
            timestamp :=
              if (extractMessageTime p).isEmpty then nowIso else extractMessageTime p
            channelId := channelId
            channelName := channelName
            channelUniqueName := channelUniqueName
            isChannel := isChannelPayload p
            isMention := isMentionPayload p
            threadId := p.thread.map (fun t => t.id) }

/-- ASCII slug characters of the older revision's title slugify:
`[a-z0-9]` after lower-casing. -/
def isSlugChar (c : Char) : Bool :=
  ('a' ≤ c && c ≤ 'z') || ('0' ≤ c && c ≤ '9')

/-- Replacement of the regex `/[^a-z0-9]+/g` by `"_"`: each maximal run
of non-slug characters collapses to one underscore. -/
def collapseNonSlug (l : List Char) : List Char :=
  l.foldr
    (fun c acc =>
      if isSlugChar c then c :: acc
      else
        match acc with
        | '_' :: _ => acc
        | _ => '_' :: acc)
    []

/-- Replacement of the regex `/^_|_$/g` by `""`: one leading and one
trailing underscore are removed. -/
def dropEdgeUnderscores (l : List Char) : List Char :=
  let l1 := match l with
    | '_' :: t => t
    | _ => l
  match l1.reverse with
  | '_' :: t => t.reverse
  | _ => l1

/-- The older revision's title-to-unique-name conversion:
`channelName.toLowerCase().replace(/[^a-z0-9]+/g, "_").replace(/^_|_$/g, "")`. -/
def slugify (s : String) : String :=
  String.mk (dropEdgeUnderscores (collapseNonSlug (jsLower s).toList))

namespace Monitor

/-- Text extraction of the older `parseCliqPayload`:
`payload.message?.text || payload.text || ""` (no trimming; a bare
string `message` has no `.text` property). -/
def extractText (p : CliqWebhookPayload) : String :=
  (jsOr
    (match p.message with
     | some (MessageField.obj t _ _) => t
     | _ => none)
    p.text).getD ""

/-- Embedding of the older `parseCliqPayload` revision (`monitor.ts` in
`src/`): channel classification uses only `channel?.id ||
channel?.unique_name` and `chat?.type === "channel"`, and when the chat
is channel-typed with a display title but no unique name is known, the
channel unique name is derived by stripping a leading `#` from the title
and slugifying it. -/
def parseCliqPayload (p : CliqWebhookPayload) (nowMs : Int) (nowIso : String) :
    Option CliqMessage :=
  let text := Monitor.extractText p
  match p.user with
  | none => none
  | some u =>
      if text.isEmpty || u.id.isEmpty then none
      else
        let hasChannelObject :=
          match p.channel with
          | some c => !c.id.isEmpty || jsTruthy c.unique_name
          | none => false
        let isChatChannel := p.chat.bind (fun c => c.type) == some "channel"
        let isChannel := hasChannelObject || isChatChannel
        let handlerStr := p.handler.getD ""
        let isMention :=
          strContains handlerStr "mention" ||
          (p.mentions.getD []).any (fun m => m.type == some "bot") ||
          isChannel
        let channelUniqueName0 :=
          jsOr (p.channel.bind (fun c => c.unique_name)) (p.channel.map (fun c => c.name))
        let channelId := p.channel.map (fun c => c.id)
        let channelName0 := p.channel.map (fun c => c.name)
        let chatId := (jsOr (p.chat.map (fun c => c.id)) channelId).getD ""
        let slugged :=
          isChatChannel && !jsTruthy channelUniqueName0 &&
            jsTruthy (p.chat.bind (fun c => c.title))
        let titleName := jsTrim (stripLeadingHash ((p.chat.bind (fun c => c.title)).getD ""))
        some
          { chatId := chatId
            senderId := u.id
            senderName := if jsTruthy u.name then u.name.getD "" else "Unknown"
            senderEmail := jsOr u.email_id u.email
            text := text
            messageId :=
              if (extractMessageId p).isEmpty then "cliq-" ++ toString nowMs
              else extractMessageId p
            timestamp :=
              if (extractMessageTime p).isEmpty then nowIso else extractMessageTime p
            channelId := channelId
            channelName := if slugged then some titleName else channelName0
            channelUniqueName :=
              if slugged then some (slugify titleName) else channelUniqueName0
            isChannel := isChannel
            isMention := isMention
            threadId := p.thread.map (fun t => t.id) }

end Monitor

/-! ## DM policy (`monitor.ts`, `isSenderAllowed` and the DM branch of
`processCliqWebhook`) -/

/-- Strip of the regex `/^(cliq|zoho-cliq):/i` on an already lower-cased
entry. -/
def stripCliqScheme (s : String) : String :=
  if jsStartsWith s "cliq:" then jsDrop s 5
  else if jsStartsWith s "zoho-cliq:" then jsDrop s 10
  else s

/-- Strip of the regex `/^user:/i` on an already lower-cased entry. -/
def stripUserScheme (s : String) : String :=
  if jsStartsWith s "user:" then jsDrop s 5
  else s

/-- Embedding of `isSenderAllowed` (`monitor.ts`): a literal `"*"` entry
admits everyone; otherwise an entry matches after trimming and
lower-casing when it equals the lower-cased sender id, equals the
normalized sender email (when non-empty), or equals the lower-cased
sender id after stripping a `cliq:`/`zoho-cliq:` or `user:` scheme. -/
def isSenderAllowed (senderId : String) (senderEmail : Option String)
    (allowFrom : List String) : Bool :=
  if allowFrom.contains "*" then true
  else
    let normalizedSenderId := jsLower senderId
    let normalizedEmail := (senderEmail.map (fun e => jsLower (jsTrim e))).getD ""
    allowFrom.any (fun entry =>
      let normalized := jsLower (jsTrim entry)
      if normalized.isEmpty then false
      else if normalized = normalizedSenderId then true
      else if !normalizedEmail.isEmpty && normalized == normalizedEmail then true
      else if stripCliqScheme normalized = normalizedSenderId then true
      else if stripUserScheme normalized = normalizedSenderId then true
      else false)

/-- Embedding of the direct-message policy branch of
`processCliqWebhook` (`monitor.ts`), for a non-channel message with the
resolved policy string: `disabled` drops; any policy other than `open`
consults `isSenderAllowed`; `open` (and the fall-through) allows.
Returns `true` when the message is allowed to proceed. -/
def dmDecision (policy : String) (allowFrom : List String)
    (senderId : String) (senderEmail : Option String) : Bool :=
  if policy = "disabled" then false
  else if policy ≠ "open" then isSenderAllowed senderId senderEmail allowFrom
  else true

/-! ## Webhook HTTP boundary (`monitor.ts`, `readJsonBody` and
`handleCliqWebhookWithTargets`) -/

/-- Result of `JSON.parse` on a raw body, as classified by the handler:
a non-object top-level value (`null`, array, number, string, boolean) or
an object decoded into a payload. -/
inductive ParsedJson where
  | nonObject
  | objPayload (p : CliqWebhookPayload)
deriving Repr, DecidableEq

/-- Streaming accumulation of `readJsonBody`: body chunks arrive in
order, `total` bytes so far; the first chunk pushing the total past
`maxBytes` aborts (`none`), otherwise the concatenated raw body is
returned. -/
def readRawBody (maxBytes : Nat) : Nat → List String → Option String
  | _, [] => some ""
  | total, c :: cs =>
      if total + c.utf8ByteSize > maxBytes then none
      else (readRawBody maxBytes (total + c.utf8ByteSize) cs).map (fun r => c ++ r)

/-- Embedding of `readJsonBody` (`monitor.ts`): over-large bodies yield
`"payload too large"`, an all-whitespace raw body yields
`"empty payload"`, a JSON parse failure yields the thrown message
(modelled by a fixed string), and otherwise the parsed value is
returned.  `parseJson` models the `JSON.parse` platform builtin. -/
def readJsonBody (parseJson : String → Option ParsedJson) (maxBytes : Nat)
    (chunks : List String) : Except String ParsedJson :=
  match readRawBody maxBytes 0 chunks with
  | none => Except.error "payload too large"
  | some raw =>
      if (jsTrim raw).isEmpty then Except.error "empty payload"
      else
        match parseJson raw with
        | some v => Except.ok v
        | none => Except.error "Unexpected token in JSON"

/-- Merge of the wrapped `params` format performed by the handler:
`params.message ?? message` and likewise for `user`, `channel`, `chat`. -/
def mergeParams (p : CliqWebhookPayload) : CliqWebhookPayload :=
  match p.params with
  | none => p
  | some pr =>
      { p with
          message := match pr.message with | some m => some m | none => p.message
          user := match pr.user with | some u => some u | none => p.user
          channel := match pr.channel with | some c => some c | none => p.channel
          chat := match pr.chat with | some c => some c | none => p.chat }

/-- An inbound HTTP request as seen by `handleCliqWebhookWithTargets`:
method, body chunks, and the three headers consulted for the shared
secret. -/
structure HttpRequest where
  method : String
  chunks : List String
  headerCliqSecret : Option String
  headerWebhookSecret : Option String
  headerAuthorization : Option String
deriving Repr, DecidableEq

/-- The part of a registered webhook target the handler consults. -/
structure WebhookTargetModel where
  webhookSecret : Option String
deriving Repr, DecidableEq

/-- The HTTP response written by the handler. -/
structure WebhookResponse where
  status : Nat
  allowHeader : Option String
  contentType : Option String
  body : String
deriving Repr, DecidableEq

/-- The provided secret:
`headers["x-cliq-webhook-secret"] || headers["x-webhook-secret"] ||
headers["authorization"]`. -/
def providedSecret (req : HttpRequest) : Option String :=
  jsOr req.headerCliqSecret (jsOr req.headerWebhookSecret req.headerAuthorization)

/-- Secret acceptance: the provided value equals the configured secret
or `"Bearer " + secret`. -/
def secretMatches (secret : String) (provided : Option String) : Bool :=
  provided == some secret || provided == some ("Bearer " ++ secret)

/-- The `200` acknowledgement body `JSON.stringify({ status: "received" })`. -/
def ackBody : String := "\x7b\"status\":\"received\"\x7d"

/-- Embedding of `handleCliqWebhookWithTargets` (`monitor.ts`).  The
response is returned together with the payload that the handler hands to
the detached `processCliqWebhook` task *after* the response is decided:
the second component models the fire-and-forget background work, so by
construction the response never depends on its outcome.  (The
`statusSink` ping and logging are side channels and not modelled.) -/
def handleCliqWebhookWithTargets (parseJson : String → Option ParsedJson)
    (req : HttpRequest) (targets : List WebhookTargetModel) :
    WebhookResponse × Option CliqWebhookPayload :=
  if req.method ≠ "POST" then
    ({ status := 405, allowHeader := some "POST", contentType := none,
       body := "Method Not Allowed" }, none)
  else
    match readJsonBody parseJson (1024 * 1024) req.chunks with
    | Except.error e =>
        ({ status := if e = "payload too large" then 413 else 400,
           allowHeader := none, contentType := none, body := e }, none)
    | Except.ok ParsedJson.nonObject =>
        ({ status := 400, allowHeader := none, contentType := none,
           body := "invalid payload" }, none)
    | Except.ok (ParsedJson.objPayload p0) =>
        let p := mergeParams p0
        match targets.head? with
        | none =>
            ({ status := 500, allowHeader := none, contentType := none,
               body := "no target configured" }, none)
        | some tgt =>
            if jsTruthy tgt.webhookSecret &&
                !secretMatches (tgt.webhookSecret.getD "") (providedSecret req) then
              ({ status := 401, allowHeader := none, contentType := none,
                 body := "unauthorized" }, none)
            else
              ({ status := 200, allowHeader := none,
                 contentType := some "application/json", body := ackBody }, some p)

/-! ### Claims C4 and C5 -/

/-- C5: the normalizer returns nothing exactly when no usable message
text was found after falling back through all known text locations, or
no (truthy) sender id is present; with both present it returns a
normalized message. -/
theorem parseCliqPayload_none_iff (p : CliqWebhookPayload) (nowMs : Int) (nowIso : String) :
    parseCliqPayload p nowMs nowIso = none ↔
      ((extractText p).isEmpty = true ∨ jsTruthy (p.user.map CliqUser.id) = false) := by
  cases hu : p.user with
  | none =>
      simp [parseCliqPayload, hu, jsTruthy]
  | some u =>
      simp only [parseCliqPayload, hu, Option.map_some', jsTruthy]
      by_cases hc : ((extractText p).isEmpty || u.id.isEmpty) = true
      · rw [if_pos hc]
        simp only [Bool.or_eq_true] at hc
        rcases hc with h | h
        · simp [h]
        · simp [h]
      · rw [if_neg hc]
        simp only [Bool.or_eq_true, not_or, Bool.not_eq_true] at hc
        simp [hc.1, hc.2]

/-- C4: on every payload the normalizer accepts, the `isMention` flag is
true exactly when the mention list contains a `"bot"`-typed entry, or
the handler-type field contains `"mention"`, or the message is
classified as channel-sourced (which the returned `isChannel` flag
reflects). -/
theorem parseCliqPayload_isMention_iff (p : CliqWebhookPayload) (nowMs : Int)
    (nowIso : String) (m : CliqMessage)
    (h : parseCliqPayload p nowMs nowIso = some m) :
    (m.isMention = true ↔
      ((p.mentions.getD []).any (fun e => e.type == some "bot") = true ∨
       strContains (p.handler.getD "") "mention" = true ∨
       isChannelPayload p = true)) ∧
    m.isChannel = isChannelPayload p := by
  cases hu : p.user with
  | none =>
      simp only [parseCliqPayload, hu] at h
      exact Option.noConfusion h
  | some u =>
      simp only [parseCliqPayload, hu] at h
      by_cases hc : ((extractText p).isEmpty || u.id.isEmpty) = true
      · rw [if_pos hc] at h
        exact absurd h (by simp)
      · rw [if_neg hc] at h
        have hm := (Option.some_inj.mp h).symm
        subst hm
        refine ⟨?_, rfl⟩
        simp only [isMentionPayload, Bool.or_eq_true]
        tauto

/-- Concrete payload for the C4 witness: a `"bot"`-typed mention entry
inside a channel-typed chat, with a non-mention handler field. -/
def samplePayloadC4 : CliqWebhookPayload :=
  { message := some (MessageField.str "hey")
    text := none
    user := some { id := "u1", name := some "Bob", first_name := none,
                   last_name := none, email_id := none, email := none }
    chat := some { id := "CH1", type := some "channel", chat_type := none,
                   title := none, channel_unique_name := none, channel_id := none }
    channel := none
    thread := none
    mentions := some [{ id := "b1", name := "Henry", type := some "bot" }]
    handler := some "message"
    params := none }

/-- Witness for C4: the sample payload (bot mention, channel-sourced,
handler field not signalling a mention) normalizes with
`isMention = true`. -/
theorem parseCliqPayload_isMention_iff_witness :
    ∃ m, parseCliqPayload samplePayloadC4 0 "t" = some m ∧ m.isMention = true := by
  cases hp : parseCliqPayload samplePayloadC4 0 "t" with
  | none => exact absurd hp (by decide)
  | some m =>
      refine ⟨m, rfl, ?_⟩
      exact ((parseCliqPayload_isMention_iff samplePayloadC4 0 "t" m hp).1).mpr
        (Or.inl (by decide))

/-! ### Claim C6 -/

/-- C6: for direct (non-channel) messages, policy `disabled` always
drops regardless of allow-list, `open` always allows, and every other
policy defers to the allow-list check; the allow-list check admits
everyone on a `"*"` entry, admits any sender whose lower-cased id equals
an entry after stripping a `user:`/`cliq:`-style scheme, and -- for the
allow-list `["abc@example.com"]` -- admits exactly the senders whose
lower-cased id or normalized (trimmed, lower-cased) email equals
`"abc@example.com"`. -/
theorem dmPolicy_spec :
    (∀ (allowFrom : List String) (senderId : String) (senderEmail : Option String),
        dmDecision "disabled" allowFrom senderId senderEmail = false) ∧
    (∀ (allowFrom : List String) (senderId : String) (senderEmail : Option String),
        dmDecision "open" allowFrom senderId senderEmail = true) ∧
    (∀ (policy : String) (allowFrom : List String) (senderId : String)
        (senderEmail : Option String), policy ≠ "disabled" → policy ≠ "open" →
        dmDecision policy allowFrom senderId senderEmail =
          isSenderAllowed senderId senderEmail allowFrom) ∧
    (∀ (senderId : String) (senderEmail : Option String) (allowFrom : List String),
        allowFrom.contains "*" = true →
        isSenderAllowed senderId senderEmail allowFrom = true) ∧
    (∀ (senderId : String) (senderEmail : Option String) (entry : String),
        (jsLower (jsTrim entry)).isEmpty = false →
        stripUserScheme (jsLower (jsTrim entry)) = jsLower senderId →
        isSenderAllowed senderId senderEmail [entry] = true) ∧
    (∀ (senderId : String) (senderEmail : Option String),
        isSenderAllowed senderId senderEmail ["abc@example.com"] = true ↔
          (jsLower senderId = "abc@example.com" ∨
           (senderEmail.map (fun e => jsLower (jsTrim e))).getD "" = "abc@example.com")) := by
  refine ⟨?_, ?_, ?_, ?_, ?_, ?_⟩
  · intro allowFrom senderId senderEmail
    rfl
  · intro allowFrom senderId senderEmail
    rfl
  · intro policy allowFrom senderId senderEmail h1 h2
    simp [dmDecision, h1, h2]
  · intro senderId senderEmail allowFrom h
    unfold isSenderAllowed
    rw [if_pos h]
  · intro senderId senderEmail entry hne hstrip
    unfold isSenderAllowed
    by_cases hw : ([entry].contains "*") = true
    · rw [if_pos hw]
    · rw [if_neg hw]
      simp only [List.any_cons, List.any_nil, Bool.or_false]
      rw [if_neg (by simp [hne])]
      by_cases h2 : jsLower (jsTrim entry) = jsLower senderId
      · rw [if_pos h2]
      · rw [if_neg h2]
        by_cases h3 : (!((senderEmail.map (fun e => jsLower (jsTrim e))).getD "").isEmpty &&
            (jsLower (jsTrim entry) == (senderEmail.map (fun e => jsLower (jsTrim e))).getD "")) = true
        · rw [if_pos h3]
        · rw [if_neg h3]
          by_cases h4 : stripCliqScheme (jsLower (jsTrim entry)) = jsLower senderId
          · rw [if_pos h4]
          · rw [if_neg h4, if_pos hstrip]
  · intro senderId senderEmail
    unfold isSenderAllowed
    rw [if_neg (by decide : ¬((["abc@example.com"] : List String).contains "*") = true)]
    simp only [List.any_cons, List.any_nil, Bool.or_false]
    rw [show jsLower (jsTrim "abc@example.com") = "abc@example.com" from by decide]
    rw [if_neg (by decide : ¬(("abc@example.com" : String).isEmpty = true))]
    rw [show stripCliqScheme "abc@example.com" = "abc@example.com" from by decide]
    rw [show stripUserScheme "abc@example.com" = "abc@example.com" from by decide]
    by_cases h2 : ("abc@example.com" : String) = jsLower senderId
    · rw [if_pos h2]
      exact ⟨fun _ => Or.inl h2.symm, fun _ => rfl⟩
    · rw [if_neg h2]
      by_cases h3 : (!((senderEmail.map (fun e => jsLower (jsTrim e))).getD "").isEmpty &&
          (("abc@example.com" : String) == (senderEmail.map (fun e => jsLower (jsTrim e))).getD "")) = true
      · rw [if_pos h3]
        constructor
        · intro _
          have hb := (Bool.and_eq_true _ _).mp h3
          exact Or.inr (eq_of_beq hb.2).symm
        · intro _; rfl
      · rw [if_neg h3, if_neg h2, if_neg h2]
        constructor
        · intro hfalse
          exact absurd hfalse (by simp)
        · intro hr
          exfalso
          rcases hr with hid | hem
          · exact h2 hid.symm
          · apply h3
            rw [hem]
            decide

/-- Witness for C6: under policy `allowlist` with allow-list
`["abc@example.com"]`, a sender with email `" ABC@Example.Com"` is
accepted (case-insensitively, trimmed) while `other@example.com` is
rejected; policy `disabled` rejects despite a `"*"` allow-list; an
entry `USER:U99` admits sender id `u99` after scheme stripping. -/
theorem dmPolicy_spec_witness :
    dmDecision "allowlist" ["abc@example.com"] "zz" (some " ABC@Example.Com") =
      isSenderAllowed "zz" (some " ABC@Example.Com") ["abc@example.com"] ∧
    isSenderAllowed "zz" (some " ABC@Example.Com") ["abc@example.com"] = true ∧
    isSenderAllowed "zz" (some "other@example.com") ["abc@example.com"] = false ∧
    dmDecision "disabled" ["*"] "zz" none = false ∧
    isSenderAllowed "u99" none ["USER:U99"] = true := by
  refine ⟨dmPolicy_spec.2.2.1 "allowlist" ["abc@example.com"] "zz" (some " ABC@Example.Com")
      (by decide) (by decide), ?_, ?_, dmPolicy_spec.1 ["*"] "zz" none, ?_⟩
  · exact (dmPolicy_spec.2.2.2.2.2 "zz" (some " ABC@Example.Com")).mpr (Or.inr (by decide))
  · have h := dmPolicy_spec.2.2.2.2.2 "zz" (some "other@example.com")
    cases hb : isSenderAllowed "zz" (some "other@example.com") ["abc@example.com"] with
    | false => rfl
    | true =>
        exfalso
        rcases h.mp hb with h1 | h1 <;> revert h1 <;> decide
  · exact dmPolicy_spec.2.2.2.2.1 "u99" none "USER:U99" (by decide) (by decide)

/-! ### Claim C8 -/

/-- The streaming read aborts with `none` exactly when the total body
size exceeds the limit (given the running total has not yet exceeded
it). -/
theorem readRawBody_eq_none_iff (maxBytes : Nat) :
    ∀ (chunks : List String) (total : Nat), total ≤ maxBytes →
      (readRawBody maxBytes total chunks = none ↔
        maxBytes < total + (chunks.map String.utf8ByteSize).sum) := by
  intro chunks
  induction chunks with
  | nil =>
      intro total ht
      simp only [readRawBody, List.map_nil, List.sum_nil, Nat.add_zero]
      constructor
      · intro h
        exact absurd h (by simp)
      · intro h
        omega
  | cons c cs ih =>
      intro total ht
      by_cases hc : total + c.utf8ByteSize > maxBytes
      · simp only [readRawBody, if_pos hc, List.map_cons, List.sum_cons]
        constructor
        · intro _
          omega
        · intro _
          trivial
      · simp only [readRawBody, if_neg hc, List.map_cons, List.sum_cons]
        rw [Option.map_eq_none']
        rw [ih (total + c.utf8ByteSize) (by omega)]
        omega

/-- C8: the webhook endpoint returns 405 with an `Allow: POST` header to
non-POST requests; for POST requests, 413 exactly when the body exceeds
1 MB; 400 when the raw body is blank, unparseable, or not a JSON object;
401 when a shared secret is configured and none of the secret headers
matches it (plain or `Bearer`-prefixed); and otherwise the immediate 200
acknowledgement, returned together with the payload for detached
processing -- the response is a fixed constant, decided before and
independent of that processing. -/
theorem webhook_http_boundary (parseJson : String → Option ParsedJson)
    (req : HttpRequest) (targets : List WebhookTargetModel) :
    (req.method ≠ "POST" →
        handleCliqWebhookWithTargets parseJson req targets =
          ({ status := 405, allowHeader := some "POST", contentType := none,
             body := "Method Not Allowed" }, none)) ∧
    (req.method = "POST" →
        ((handleCliqWebhookWithTargets parseJson req targets).1.status = 413 ↔
          1024 * 1024 < (req.chunks.map String.utf8ByteSize).sum)) ∧
    (req.method = "POST" → ∀ raw, readRawBody (1024 * 1024) 0 req.chunks = some raw →
        ((jsTrim raw).isEmpty = true ∨ parseJson raw = none ∨
         parseJson raw = some ParsedJson.nonObject) →
        (handleCliqWebhookWithTargets parseJson req targets).1.status = 400) ∧
    (req.method = "POST" → ∀ (p0 : CliqWebhookPayload) (tgt : WebhookTargetModel),
        readJsonBody parseJson (1024 * 1024) req.chunks =
          Except.ok (ParsedJson.objPayload p0) →
        targets.head? = some tgt →
        jsTruthy tgt.webhookSecret = true →
        secretMatches (tgt.webhookSecret.getD "") (providedSecret req) = false →
        handleCliqWebhookWithTargets parseJson req targets =
          ({ status := 401, allowHeader := none, contentType := none,
             body := "unauthorized" }, none)) ∧
    (req.method = "POST" → ∀ (p0 : CliqWebhookPayload) (tgt : WebhookTargetModel),
        readJsonBody parseJson (1024 * 1024) req.chunks =
          Except.ok (ParsedJson.objPayload p0) →
        targets.head? = some tgt →
        (jsTruthy tgt.webhookSecret = false ∨
         secretMatches (tgt.webhookSecret.getD "") (providedSecret req) = true) →
        handleCliqWebhookWithTargets parseJson req targets =
          ({ status := 200, allowHeader := none, contentType := some "application/json",
             body := ackBody }, some (mergeParams p0))) := by
  refine ⟨?_, ?_, ?_, ?_, ?_⟩
  · intro hm
    unfold handleCliqWebhookWithTargets
    rw [if_pos hm]
  · intro hm
    have hiff := readRawBody_eq_none_iff (1024 * 1024) req.chunks 0 (by omega)
    rw [Nat.zero_add] at hiff
    by_cases hnone : readRawBody (1024 * 1024) 0 req.chunks = none
    · have hh : handleCliqWebhookWithTargets parseJson req targets =
          ({ status := 413, allowHeader := none, contentType := none,
             body := "payload too large" }, none) := by
        unfold handleCliqWebhookWithTargets readJsonBody
        rw [if_neg (by simp [hm]), hnone]
        rfl
      rw [hh]
      simpa using hiff.mp hnone
    · obtain ⟨raw, hraw⟩ := Option.ne_none_iff_exists'.mp hnone
      have hjson : readJsonBody parseJson (1024 * 1024) req.chunks =
          (if (jsTrim raw).isEmpty = true then Except.error "empty payload"
           else
             match parseJson raw with
             | some v => Except.ok v
             | none => Except.error "Unexpected token in JSON") := by
        unfold readJsonBody
        rw [hraw]
      have hstat : (handleCliqWebhookWithTargets parseJson req targets).1.status ≠ 413 := by
        unfold handleCliqWebhookWithTargets
        rw [if_neg (by simp [hm]), hjson]
        by_cases he : ((jsTrim raw).isEmpty) = true
        · rw [if_pos he]
          simp
        · rw [if_neg he]
          cases hp : parseJson raw with
          | none => simp
          | some v =>
              cases v with
              | nonObject => simp
              | objPayload p0 =>
                  cases hh : targets.head? with
                  | none => simp
                  | some tgt =>
                      by_cases hs : (jsTruthy tgt.webhookSecret &&
                          !secretMatches (tgt.webhookSecret.getD "") (providedSecret req)) = true
                      · simp [hs]
                      · simp [hs]
      constructor
      · intro h413
        exact absurd h413 hstat
      · intro hsum
        exact absurd (hiff.mpr hsum) hnone
  · intro hm raw hraw hbad
    have hjson : readJsonBody parseJson (1024 * 1024) req.chunks =
        (if (jsTrim raw).isEmpty = true then Except.error "empty payload"
         else
           match parseJson raw with
           | some v => Except.ok v
           | none => Except.error "Unexpected token in JSON") := by
      unfold readJsonBody
      rw [hraw]
    unfold handleCliqWebhookWithTargets
    rw [if_neg (by simp [hm]), hjson]
    rcases hbad with he | hp | hp
    · rw [if_pos he]
      simp
    · by_cases he : ((jsTrim raw).isEmpty) = true
      · rw [if_pos he]
        simp
      · rw [if_neg he, hp]
        simp
    · by_cases he : ((jsTrim raw).isEmpty) = true
      · rw [if_pos he]
        simp
      · rw [if_neg he, hp]
  · intro hm p0 tgt hok hh hsec hmatch
    unfold handleCliqWebhookWithTargets
    rw [if_neg (by simp [hm]), hok, hh]
    simp [hsec, hmatch]
  · intro hm p0 tgt hok hh hfree
    unfold handleCliqWebhookWithTargets
    rw [if_neg (by simp [hm]), hok, hh]
    have hcond : (jsTruthy tgt.webhookSecret &&
        !secretMatches (tgt.webhookSecret.getD "") (providedSecret req)) = false := by
      rcases hfree with hs | hs <;> simp [hs]
    simp [hcond]

/-- The all-absent payload, used by concrete handler scenarios. -/
def emptyPayload : CliqWebhookPayload :=
  { message := none, text := none, user := none, chat := none, channel := none,
    thread := none, mentions := none, handler := none, params := none }

/-- Witness for C8 at concrete requests: a GET gets 405 with
`Allow: POST`; a valid POST with no secret configured gets the 200
acknowledgement plus the detached payload; the same POST against a
target with secret `s3cret` and no secret header gets 401; a POST with
an empty body gets 400; and the small valid POST is not a 413. -/
theorem webhook_http_boundary_witness :
    handleCliqWebhookWithTargets (fun _ => some (ParsedJson.objPayload emptyPayload))
        { method := "GET", chunks := [], headerCliqSecret := none,
          headerWebhookSecret := none, headerAuthorization := none }
        [{ webhookSecret := none }] =
      ({ status := 405, allowHeader := some "POST", contentType := none,
         body := "Method Not Allowed" }, none) ∧
    handleCliqWebhookWithTargets (fun _ => some (ParsedJson.objPayload emptyPayload))
        { method := "POST", chunks := ["\x7b\x7d"], headerCliqSecret := none,
          headerWebhookSecret := none, headerAuthorization := none }
        [{ webhookSecret := none }] =
      ({ status := 200, allowHeader := none, contentType := some "application/json",
         body := ackBody }, some (mergeParams emptyPayload)) ∧
    handleCliqWebhookWithTargets (fun _ => some (ParsedJson.objPayload emptyPayload))
        { method := "POST", chunks := ["\x7b\x7d"], headerCliqSecret := none,
          headerWebhookSecret := none, headerAuthorization := none }
        [{ webhookSecret := some "s3cret" }] =
      ({ status := 401, allowHeader := none, contentType := none,
         body := "unauthorized" }, none) ∧
    (handleCliqWebhookWithTargets (fun _ => some (ParsedJson.objPayload emptyPayload))
        { method := "POST", chunks := [], headerCliqSecret := none,
          headerWebhookSecret := none, headerAuthorization := none }
        [{ webhookSecret := none }]).1.status = 400 ∧
    (handleCliqWebhookWithTargets (fun _ => some (ParsedJson.objPayload emptyPayload))
        { method := "POST", chunks := ["\x7b\x7d"], headerCliqSecret := none,
          headerWebhookSecret := none, headerAuthorization := none }
        [{ webhookSecret := none }]).1.status ≠ 413 := by
  refine ⟨?_, ?_, ?_, ?_, ?_⟩
  · exact (webhook_http_boundary (fun _ => some (ParsedJson.objPayload emptyPayload))
      { method := "GET", chunks := [], headerCliqSecret := none,
        headerWebhookSecret := none, headerAuthorization := none }
      [{ webhookSecret := none }]).1 (by decide)
  · exact (webhook_http_boundary (fun _ => some (ParsedJson.objPayload emptyPayload))
      { method := "POST", chunks := ["\x7b\x7d"], headerCliqSecret := none,
        headerWebhookSecret := none, headerAuthorization := none }
      [{ webhookSecret := none }]).2.2.2.2 rfl emptyPayload { webhookSecret := none }
      rfl rfl (Or.inl rfl)
  · exact (webhook_http_boundary (fun _ => some (ParsedJson.objPayload emptyPayload))
      { method := "POST", chunks := ["\x7b\x7d"], headerCliqSecret := none,
        headerWebhookSecret := none, headerAuthorization := none }
      [{ webhookSecret := some "s3cret" }]).2.2.2.1 rfl emptyPayload
      { webhookSecret := some "s3cret" } rfl rfl (by decide) (by decide)
  · exact (webhook_http_boundary (fun _ => some (ParsedJson.objPayload emptyPayload))
      { method := "POST", chunks := [], headerCliqSecret := none,
        headerWebhookSecret := none, headerAuthorization := none }
      [{ webhookSecret := none }]).2.2.1 rfl "" rfl (Or.inl (by decide))
  · intro h413
    have hiff := (webhook_http_boundary (fun _ => some (ParsedJson.objPayload emptyPayload))
      { method := "POST", chunks := ["\x7b\x7d"], headerCliqSecret := none,
        headerWebhookSecret := none, headerAuthorization := none }
      [{ webhookSecret := none }]).2.1 rfl
    have := hiff.mp h413
    revert this
    decide

/-! ### Claim C9 -/

/-- Chat object for the C9 counterexample: channel-typed, display title
`"#???"` (no alphanumeric characters), no machine-usable identifier. -/
def chatC9cx : CliqChat :=
  { id := "CH1", type := some "channel", chat_type := none, title := some "#???",
    channel_unique_name := none, channel_id := none }

/-- Payload for the C9 counterexample: a channel-sourced message whose
chat carries only the display title `"#???"`. -/
def samplePayloadC9cx : CliqWebhookPayload :=
  { message := some (MessageField.obj (some "hello") none none)
    text := none
    user := some { id := "u1", name := some "Bob", first_name := none,
                   last_name := none, email_id := none, email := none }
    chat := some chatC9cx
    channel := none
    thread := none
    mentions := none
    handler := none
    params := none }

/-- C9 (counterexample): on a channel-sourced payload carrying the
display title `"#???"` and no machine-usable channel identifier, the
older normalizer produces the *empty* `channelUniqueName` (the slug of a
title without alphanumerics), and the newer normalizer does not derive a
`channelUniqueName` from the title at all -- so the normalized message
does not get a non-empty `channelUniqueName` derived from the title. -/
theorem slugTitle_counterexample :
    (Monitor.parseCliqPayload samplePayloadC9cx 0 "t").map
        (fun m => m.channelUniqueName) = some (some "") ∧
    (parseCliqPayload samplePayloadC9cx 0 "t").map
        (fun m => m.channelUniqueName) = some none := by
  decide

/-- C9 (amended): for a chat-typed channel payload with a truthy display
title and no channel object or `channel_unique_name`, the older
normalizer (`Monitor`) derives `channelName` by stripping the leading
hash from the title and trimming, and `channelUniqueName` as its slug
(lower-cased, non-alphanumeric runs collapsed to `_`, one leading and
trailing `_` removed) -- a value that may be empty; the newer normalizer
derives only `channelName` this way and leaves `channelUniqueName`
unset. -/
theorem slugTitle_spec (p : CliqWebhookPayload) (nowMs : Int) (nowIso : String)
    (c : CliqChat)
    (hchat : p.chat = some c)
    (htype : c.type = some "channel")
    (htitle : jsTruthy c.title = true)
    (hchannel : p.channel = none)
    (hcun : c.channel_unique_name = none) :
    (∀ m, Monitor.parseCliqPayload p nowMs nowIso = some m →
        m.channelUniqueName = some (slugify (jsTrim (stripLeadingHash (c.title.getD "")))) ∧
        m.channelName = some (jsTrim (stripLeadingHash (c.title.getD "")))) ∧
    (∀ m, parseCliqPayload p nowMs nowIso = some m →
        m.channelUniqueName = none ∧
        m.channelName = some (jsTrim (stripLeadingHash (c.title.getD "")))) := by
  constructor
  · intro m hm
    cases hu : p.user with
    | none =>
        simp only [Monitor.parseCliqPayload, hu] at hm
        exact Option.noConfusion hm
    | some u =>
        simp only [Monitor.parseCliqPayload, hu] at hm
        by_cases hc : ((Monitor.extractText p).isEmpty || u.id.isEmpty) = true
        · rw [if_pos hc] at hm
          exact Option.noConfusion hm
        · rw [if_neg hc] at hm
          have hm2 := (Option.some_inj.mp hm).symm
          subst hm2
          obtain ⟨ts, hts⟩ : ∃ ts, c.title = some ts := by
            cases ht : c.title with
            | none =>
                rw [ht] at htitle
                exact absurd htitle (by decide)
            | some ts => exact ⟨ts, rfl⟩
          have htne : ts.isEmpty = false := by
            rw [hts] at htitle
            simpa [jsTruthy] using htitle
          constructor <;>
            simp [hchat, htype, hts, htne, hchannel, hcun, jsOr, jsTruthy]
  · intro m hm
    cases hu : p.user with
    | none =>
        simp only [parseCliqPayload, hu] at hm
        exact Option.noConfusion hm
    | some u =>
        simp only [parseCliqPayload, hu] at hm
        by_cases hc : ((extractText p).isEmpty || u.id.isEmpty) = true
        · rw [if_pos hc] at hm
          exact Option.noConfusion hm
        · rw [if_neg hc] at hm
          have hm2 := (Option.some_inj.mp hm).symm
          subst hm2
          obtain ⟨ts, hts⟩ : ∃ ts, c.title = some ts := by
            cases ht : c.title with
            | none =>
                rw [ht] at htitle
                exact absurd htitle (by decide)
            | some ts => exact ⟨ts, rfl⟩
          have htne : ts.isEmpty = false := by
            rw [hts] at htitle
            simpa [jsTruthy] using htitle
          constructor <;>
            simp [hchat, htype, hts, htne, hchannel, hcun, jsOr, jsTruthy]

/-- Chat object for the C9 witness: channel-typed with display title
`"#Team Name"` and no machine-usable identifier. -/
def chatC9 : CliqChat :=
  { id := "CH1", type := some "channel", chat_type := none, title := some "#Team Name",
    channel_unique_name := none, channel_id := none }

/-- Payload for the C9 witness. -/
def samplePayloadC9 : CliqWebhookPayload :=
  { message := some (MessageField.obj (some "hello") none none)
    text := none
    user := some { id := "u1", name := some "Bob", first_name := none,
                   last_name := none, email_id := none, email := none }
    chat := some chatC9
    channel := none
    thread := none
    mentions := none
    handler := none
    params := none }

/-- Witness for C9 (amended theorem): the title `"#Team Name"` slugifies
to `"team_name"` in the older normalizer. -/
theorem slugTitle_spec_witness :
    ∃ m, Monitor.parseCliqPayload samplePayloadC9 0 "t" = some m ∧
      m.channelUniqueName = some "team_name" ∧
      m.channelName = some "Team Name" := by
  cases hp : Monitor.parseCliqPayload samplePayloadC9 0 "t" with
  | none => exact absurd hp (by decide)
  | some m =>
      refine ⟨m, rfl, ?_, ?_⟩
      · rw [((slugTitle_spec samplePayloadC9 0 "t" chatC9 rfl rfl (by decide) rfl rfl).1
          m hp).1]
        decide
      · rw [((slugTitle_spec samplePayloadC9 0 "t" chatC9 rfl rfl (by decide) rfl rfl).1
          m hp).2]
        decide
